import Mathlib

/-!
Verification of the arithmetic, orchestration, session and streaming layers of the
azure-semantic-kernel-agent-starter repository, as a shallow embedding in Lean 4.

Python numerics are modelled as follows: `float` values as `ℚ` with the transcendental
library functions (`math.sqrt`, `math.log`, float `**`, the constant `math.e`) as
abstract parameters shared by every definition that calls them, `int` values as `ℤ`
(Python integers are unbounded), the Python `%` operator on integers as `Int.fmod`
(both use flooring division, so the remainder's sign follows the divisor), and a
raised exception as the `error` case of `Except`.
-/

/-- A Python exception as raised by the math code: `ValueError` with its message,
or the `ZeroDivisionError` raised by an unguarded `%` with zero modulus. -/
inductive PyError where
  | valueError (msg : String)
  | zeroDivisionError
  deriving DecidableEq, Repr

/-! ### src/agents/math_agent/plugins/math_plugin.py — class MathPlugin

Each kernel function is translated on already-numeric arguments (the
`isinstance(input, str)` re-coercions are identity there). -/

namespace MathPlugin

/-- Embeds `MathPlugin.add`: returns `input + amount`. -/
def add (input amount : ℚ) : ℚ := input + amount

/-- Embeds `MathPlugin.subtract`: returns `input - amount`. -/
def subtract (input amount : ℚ) : ℚ := input - amount

/-- Embeds `MathPlugin.multiply`: returns `input * amount`. -/
def multiply (input amount : ℚ) : ℚ := input * amount

/-- Embeds `MathPlugin.divide`: guards `amount == 0`, then returns `input / amount`. -/
def divide (input amount : ℚ) : Except PyError ℚ :=
  if amount = 0 then .error (.valueError "Cannot divide by zero.")
  else .ok (input / amount)

/-- Embeds `MathPlugin.square_root`: guards `input < 0`, then returns `math.sqrt(input)`. -/
def square_root (mathSqrt : ℚ → ℚ) (input : ℚ) : Except PyError ℚ :=
  if input < 0 then .error (.valueError "Cannot calculate square root of a negative number.")
  else .ok (mathSqrt input)

/-- Embeds `MathPlugin.power`: returns `input ** exponent` (float power). -/
def power (floatPow : ℚ → ℚ → ℚ) (input exponent : ℚ) : ℚ :=
  floatPow input exponent

/-- Embeds `MathPlugin.log`: guards `input <= 0` and `base <= 0 or base == 1`, then
branches on `base == math.e` between `math.log(input)` and `math.log(input, base)`.
The Python `base` parameter defaults to `math.e`. -/
def log (mathLog : ℚ → ℚ) (mathLogBase : ℚ → ℚ → ℚ) (mathE : ℚ) (input base : ℚ) :
    Except PyError ℚ :=
  if input ≤ 0 then .error (.valueError "Cannot calculate logarithm of a non-positive number.")
  else if base ≤ 0 ∨ base = 1 then
    .error (.valueError "Logarithm base must be positive and not equal to 1.")
  else if base = mathE then .ok (mathLog input)
  else .ok (mathLogBase input base)

/-- Embeds `MathPlugin.modulo`: guards `amount == 0`, then returns `input % amount`
(Python flooring remainder). -/
def modulo (input amount : ℤ) : Except PyError ℤ :=
  if amount = 0 then .error (.valueError "Cannot modulo by zero.")
  else .ok (input.fmod amount)

/-- Embeds the `for x in range(1, modulus)` scan of `MathPlugin.modular_inverse`:
`fuel` candidates starting at `x`, returning the first `x` with `(r * x) % m == 1`. -/
def inverseLoop (r m : ℤ) : Nat → ℤ → Option ℤ
  | 0, _ => none
  | fuel + 1, x => if (r * x).fmod m = 1 then some x else inverseLoop r m fuel (x + 1)

/-- Embeds `MathPlugin.modular_inverse`: `input % modulus` (a `ZeroDivisionError` when
`modulus == 0`), then the brute-force scan over `range(1, modulus)`, else `ValueError`. -/
def modular_inverse (input modulus : ℤ) : Except PyError ℤ :=
  if modulus = 0 then .error .zeroDivisionError
  else
    let r := input.fmod modulus
    match inverseLoop r modulus (modulus.toNat - 1) 1 with
    | some x => .ok x
    | none => .error (.valueError
        ("No modular inverse exists for " ++ toString r ++ " mod " ++ toString modulus ++ "."))

end MathPlugin

/-! ### src/mcp_server/tools/*.py — the Math Tool Server's tool functions

The `float(...)` / `int(...)` coercions are identity on the already-typed arguments
the remote tool server receives. -/

namespace McpTools

/-- Embeds `addition.add`: returns `float(a) + float(b)`. -/
def add (a b : ℚ) : ℚ := a + b

/-- Embeds `subtraction.subtract`: returns `float(a) - float(b)`. -/
def subtract (a b : ℚ) : ℚ := a - b

/-- Embeds `multiplication.multiply`: returns `float(a) * float(b)`. -/
def multiply (a b : ℚ) : ℚ := a * b

/-- Embeds `division.divide`: guards `float(b) == 0`, then returns `float(a) / float(b)`. -/
def divide (a b : ℚ) : Except PyError ℚ :=
  if b = 0 then .error (.valueError "Cannot divide by zero.")
  else .ok (a / b)

/-- Embeds `square_root.square_root`: guards `x < 0`, then returns `math.sqrt(x)`. -/
def square_root (mathSqrt : ℚ → ℚ) (x : ℚ) : Except PyError ℚ :=
  if x < 0 then .error (.valueError "Cannot calculate square root of a negative number.")
  else .ok (mathSqrt x)

/-- Embeds `power.power`: returns `float(base) ** float(exponent)`. -/
def power (floatPow : ℚ → ℚ → ℚ) (base exponent : ℚ) : ℚ :=
  floatPow base exponent

/-- Embeds `logarithm.log`: guards `x <= 0` and `base <= 0 or base == 1`, then branches
on `base == math.e` between `math.log(x)` and `math.log(x, base)`; `base` defaults
to `math.e`. -/
def log (mathLog : ℚ → ℚ) (mathLogBase : ℚ → ℚ → ℚ) (mathE : ℚ) (x base : ℚ) :
    Except PyError ℚ :=
  if x ≤ 0 then .error (.valueError "Cannot calculate logarithm of a non-positive number.")
  else if base ≤ 0 ∨ base = 1 then
    .error (.valueError "Logarithm base must be positive and not equal to 1.")
  else if base = mathE then .ok (mathLog x)
  else .ok (mathLogBase x base)

/-- Embeds `modulo.modulo`: guards `int(b) == 0`, then returns `int(a) % int(b)`. -/
def modulo (a b : ℤ) : Except PyError ℤ :=
  if b = 0 then .error (.valueError "Cannot modulo by zero.")
  else .ok (a.fmod b)

/-- Embeds the `for x in range(1, m)` scan of `modulo.modular_inverse`. -/
def inverseLoop (r m : ℤ) : Nat → ℤ → Option ℤ
  | 0, _ => none
  | fuel + 1, x => if (r * x).fmod m = 1 then some x else inverseLoop r m fuel (x + 1)

/-- Embeds `modulo.modular_inverse`: `a = a % m` (a `ZeroDivisionError` when `m == 0`),
then the brute-force scan over `range(1, m)`, else `ValueError`. -/
def modular_inverse (a m : ℤ) : Except PyError ℤ :=
  if m = 0 then .error .zeroDivisionError
  else
    let r := a.fmod m
    match inverseLoop r m (m.toNat - 1) 1 with
    | some x => .ok x
    | none => .error (.valueError
        ("No modular inverse exists for " ++ toString r ++ " mod " ++ toString m ++ "."))

end McpTools

/-- The two textually duplicated brute-force scans agree step by step. -/
theorem mathPlugin_inverseLoop_eq (r m : ℤ) (fuel : Nat) (x : ℤ) :
    MathPlugin.inverseLoop r m fuel x = McpTools.inverseLoop r m fuel x := by
  induction fuel generalizing x with
  | zero => rfl
  | succ n ih =>
    simp only [MathPlugin.inverseLoop, McpTools.inverseLoop, ih]

/-- C1: For each of the nine arithmetic operations (Add, Subtract, Multiply, Divide,
SquareRoot, Power, Log, Modulo, ModularInverse) and for every numeric input, the
embedded Math Plugin implementation and the Math Tool Server tool implementation
return the same result, and fail under exactly the same input conditions with the
same error message. The shared library functions (`math.sqrt`, `math.log`, float
`**`, `math.e`) are abstracted identically on both sides. -/
theorem C1_plugin_server_equivalence (mathSqrt : ℚ → ℚ) (mathLog : ℚ → ℚ)
    (mathLogBase : ℚ → ℚ → ℚ) (mathE : ℚ) (floatPow : ℚ → ℚ → ℚ)
    (a b x base : ℚ) (ia im : ℤ) :
    MathPlugin.add a b = McpTools.add a b ∧
    MathPlugin.subtract a b = McpTools.subtract a b ∧
    MathPlugin.multiply a b = McpTools.multiply a b ∧
    MathPlugin.divide a b = McpTools.divide a b ∧
    MathPlugin.square_root mathSqrt x = McpTools.square_root mathSqrt x ∧
    MathPlugin.power floatPow a b = McpTools.power floatPow a b ∧
    MathPlugin.log mathLog mathLogBase mathE x base =
      McpTools.log mathLog mathLogBase mathE x base ∧
    MathPlugin.modulo ia im = McpTools.modulo ia im ∧
    MathPlugin.modular_inverse ia im = McpTools.modular_inverse ia im := by
  refine ⟨rfl, rfl, rfl, rfl, rfl, rfl, rfl, rfl, ?_⟩
  unfold MathPlugin.modular_inverse McpTools.modular_inverse
  simp only [mathPlugin_inverseLoop_eq]

-- Decidable equality for the result type of the fallible operations, used to
-- evaluate the embedded code on concrete inputs.
deriving instance DecidableEq for Except

/-! ### Facts about Python's flooring remainder (`Int.fmod`) -/

/-- Flooring division is invariant under negating both operands. -/
theorem int_fdiv_neg_neg : ∀ (a b : ℤ), (-a).fdiv (-b) = a.fdiv b
  | a, .ofNat 0 => by
      show (-a).fdiv (-(0 : ℤ)) = a.fdiv (0 : ℤ)
      rw [neg_zero, Int.fdiv_zero, Int.fdiv_zero]
  | .ofNat 0, .ofNat (_ + 1) => rfl
  | .ofNat 0, .negSucc _ => rfl
  | .ofNat (_ + 1), .ofNat (_ + 1) => rfl
  | .ofNat (_ + 1), .negSucc _ => rfl
  | .negSucc _, .ofNat (_ + 1) => rfl
  | .negSucc _, .negSucc _ => rfl

/-- The flooring remainder of the negations is the negated flooring remainder. -/
theorem int_fmod_neg_neg (a b : ℤ) : (-a).fmod (-b) = -(a.fmod b) := by
  rw [Int.fmod_def, Int.fmod_def, int_fdiv_neg_neg]
  ring

/-- For a negative divisor the flooring remainder (Python `%`) lies in `(b, 0]`:
its sign follows the divisor. -/
theorem int_fmod_neg_bounds (a : ℤ) {b : ℤ} (hb : b < 0) :
    b < a.fmod b ∧ a.fmod b ≤ 0 := by
  have h1 : (-a).fmod (-b) = -(a.fmod b) := int_fmod_neg_neg a b
  have h2 : 0 ≤ (-a).fmod (-b) := Int.fmod_nonneg' _ (by omega)
  have h3 : (-a).fmod (-b) < -b := Int.fmod_lt_of_pos _ (by omega)
  omega

/-! ### Behaviour of the brute-force inverse scan -/

/-- If the scan returns `some x`, then `x` is in the scanned window, satisfies the
probe `(r * x) % m == 1`, and is the first candidate that does. -/
theorem inverseLoop_eq_some {r m : ℤ} {x : ℤ} :
    ∀ {fuel : Nat} {x0 : ℤ}, McpTools.inverseLoop r m fuel x0 = some x →
      x0 ≤ x ∧ x < x0 + fuel ∧ (r * x).fmod m = 1 ∧
        ∀ y, x0 ≤ y → y < x → (r * y).fmod m ≠ 1 := by
  intro fuel
  induction fuel with
  | zero => intro x0 h; simp [McpTools.inverseLoop] at h
  | succ n ih =>
    intro x0 h
    rw [McpTools.inverseLoop] at h
    by_cases hp : (r * x0).fmod m = 1
    · rw [if_pos hp] at h
      obtain rfl : x0 = x := by simpa using h
      exact ⟨le_refl _, by omega, hp,
        fun y hy1 hy2 => absurd (lt_of_le_of_lt hy1 hy2) (lt_irrefl _)⟩
    · rw [if_neg hp] at h
      obtain ⟨h1, h2, h3, h4⟩ := ih h
      refine ⟨by omega, by push_cast at h2 ⊢; omega, h3, ?_⟩
      intro y hy1 hy2
      rcases eq_or_lt_of_le hy1 with rfl | hlt
      · exact hp
      · exact h4 y (by omega) hy2

/-- If the scan returns `none`, no candidate in the scanned window passes the probe. -/
theorem inverseLoop_eq_none {r m : ℤ} :
    ∀ {fuel : Nat} {x0 : ℤ}, McpTools.inverseLoop r m fuel x0 = none →
      ∀ y, x0 ≤ y → y < x0 + fuel → (r * y).fmod m ≠ 1 := by
  intro fuel
  induction fuel with
  | zero => intro x0 _ y hy1 hy2; push_cast at hy2; omega
  | succ n ih =>
    intro x0 h y hy1 hy2
    rw [McpTools.inverseLoop] at h
    by_cases hp : (r * x0).fmod m = 1
    · rw [if_pos hp] at h; exact absurd h (by simp)
    · rw [if_neg hp] at h
      rcases eq_or_lt_of_le hy1 with rfl | hlt
      · exact hp
      · exact ih h y (by omega) (by push_cast at hy2 ⊢; omega)

/-- A scan whose probe can never succeed returns `none` from any starting point. -/
theorem inverseLoop_none_of_no_hit {r m : ℤ} (h : ∀ y : ℤ, (r * y).fmod m ≠ 1) :
    ∀ (fuel : Nat) (x0 : ℤ), McpTools.inverseLoop r m fuel x0 = none := by
  intro fuel
  induction fuel with
  | zero => intro x0; rfl
  | succ n ih => intro x0; rw [McpTools.inverseLoop, if_neg (h x0)]; exact ih (x0 + 1)

/-- C2 (amended to moduli `m ≥ 2`): `modular_inverse` first reduces `a` into `[0, m)`
and then returns the smallest `x` with `1 ≤ x < m` and `(a mod m)·x ≡ 1 (mod m)`
(the first match of the ascending scan); when `gcd(a mod m, m) ≠ 1` no such `x`
exists and it fails with the NotFound `ValueError`. -/
theorem C2_modular_inverse_correct (a m : ℤ) (hm : 2 ≤ m) :
    0 ≤ a.fmod m ∧ a.fmod m < m ∧
    (Int.gcd (a.fmod m) m = 1 →
      ∃ x, McpTools.modular_inverse a m = .ok x ∧ 1 ≤ x ∧ x < m ∧
        ((a.fmod m) * x).fmod m = 1 ∧
        ∀ y, 1 ≤ y → y < x → ((a.fmod m) * y).fmod m ≠ 1) ∧
    (Int.gcd (a.fmod m) m ≠ 1 →
      McpTools.modular_inverse a m = .error (.valueError
        ("No modular inverse exists for " ++ toString (a.fmod m) ++
          " mod " ++ toString m ++ "."))) := by
  have hm0 : (0:ℤ) < m := by omega
  have hr0 : 0 ≤ a.fmod m := Int.fmod_nonneg' a hm0
  have hrm : a.fmod m < m := Int.fmod_lt_of_pos a hm0
  set r := a.fmod m with hrdef
  refine ⟨hr0, hrm, ?_, ?_⟩
  · intro hg
    have hmN : (m.natAbs : ℤ) = m := Int.natAbs_of_nonneg (le_of_lt hm0)
    have hrN : (r.natAbs : ℤ) = r := Int.natAbs_of_nonneg hr0
    have hk : 1 < m.natAbs := by omega
    have hcop : Nat.Coprime r.natAbs m.natAbs := hg
    obtain ⟨w, hw⟩ := Nat.exists_mul_emod_eq_one_of_coprime hcop hk
    have hwI : ((r.natAbs * w % m.natAbs : ℕ) : ℤ) = 1 := by rw [hw]; norm_num
    have hwI2 : (r * (w : ℤ)) % m = 1 := by
      rw [Int.ofNat_emod, Nat.cast_mul, hrN, hmN] at hwI
      exact hwI
    set y := (w : ℤ) % m with hydef
    have hy0 : 0 ≤ y := Int.emod_nonneg _ (by omega)
    have hym : y < m := Int.emod_lt_of_pos _ hm0
    have hpy : (r * y) % m = 1 := by
      have heq : (r * y) % m = (r * (w : ℤ)) % m := by
        rw [Int.mul_emod, hydef, Int.emod_emod_of_dvd _ (dvd_refl m), ← Int.mul_emod]
      rw [heq]; exact hwI2
    have hy1 : 1 ≤ y := by
      rcases eq_or_lt_of_le hy0 with h0 | h0
      · exfalso
        rw [← h0, Int.mul_zero, Int.zero_emod] at hpy
        omega
      · omega
    have hfy : (r * y).fmod m = 1 := by
      rw [Int.fmod_eq_emod _ (le_of_lt hm0)]; exact hpy
    cases hloop : McpTools.inverseLoop r m (m.toNat - 1) 1 with
    | none =>
      exfalso
      exact inverseLoop_eq_none hloop y hy1 (by omega) hfy
    | some x =>
      obtain ⟨h1, h2, h3, h4⟩ := inverseLoop_eq_some hloop
      refine ⟨x, ?_, h1, by omega, h3, fun z hz1 hz2 => h4 z hz1 hz2⟩
      unfold McpTools.modular_inverse
      rw [if_neg (by omega)]
      simp only [← hrdef, hloop]
  · intro hg
    cases hloop : McpTools.inverseLoop r m (m.toNat - 1) 1 with
    | some x =>
      exfalso
      obtain ⟨h1, h2, h3, h4⟩ := inverseLoop_eq_some hloop
      have hmod : r * x - m * ((r * x) / m) = 1 := by
        rw [← Int.emod_def, ← Int.fmod_eq_emod _ (le_of_lt hm0)]
        exact h3
      have hdvd1 : (↑(Int.gcd r m) : ℤ) ∣ 1 := by
        rw [← hmod]
        exact dvd_sub (Dvd.dvd.mul_right Int.gcd_dvd_left x)
          (Dvd.dvd.mul_right Int.gcd_dvd_right _)
      have hone : Int.gcd r m = 1 := by
        have h := Int.natCast_dvd_natCast.mp (by exact_mod_cast hdvd1)
        exact Nat.dvd_one.mp h
      exact hg hone
    | none =>
      unfold McpTools.modular_inverse
      rw [if_neg (by omega)]
      simp only [← hrdef, hloop]

/-- C2 counterexample: the claim quantifies over all integers `a` and `m`, but at
`a = 0, m = 1` the gcd condition holds (`gcd(0 mod 1, 1) = 1`) and yet the code
returns no inverse at all — it fails with the NotFound `ValueError` because the
scan range `range(1, 1)` is empty. -/
theorem C2_counterexample :
    Int.gcd ((0:ℤ).fmod 1) 1 = 1 ∧
    McpTools.modular_inverse 0 1 =
      .error (.valueError "No modular inverse exists for 0 mod 1.") ∧
    ¬ ∃ x : ℤ, McpTools.modular_inverse 0 1 = .ok x := by
  refine ⟨by decide, by decide, ?_⟩
  rintro ⟨x, hx⟩
  rw [show McpTools.modular_inverse 0 1 =
      .error (.valueError "No modular inverse exists for 0 mod 1.") by decide] at hx
  cases hx

/-- C2 witness: the amended theorem applied at `a = 3, m = 7`, together with the
claim's concrete examples `ModularInverse(3, 7) = 5` and `ModularInverse(2, 4)`
failing with the NotFound error. -/
theorem C2_witness :
    (2:ℤ) ≤ 7 ∧
    McpTools.modular_inverse 3 7 = .ok 5 ∧
    McpTools.modular_inverse 2 4 =
      .error (.valueError "No modular inverse exists for 2 mod 4.") ∧
    (0 ≤ (3:ℤ).fmod 7 ∧ (3:ℤ).fmod 7 < 7 ∧
      (Int.gcd ((3:ℤ).fmod 7) 7 = 1 →
        ∃ x, McpTools.modular_inverse 3 7 = .ok x ∧ 1 ≤ x ∧ x < 7 ∧
          (((3:ℤ).fmod 7) * x).fmod 7 = 1 ∧
          ∀ y, 1 ≤ y → y < x → (((3:ℤ).fmod 7) * y).fmod 7 ≠ 1) ∧
      (Int.gcd ((3:ℤ).fmod 7) 7 ≠ 1 →
        McpTools.modular_inverse 3 7 = .error (.valueError
          ("No modular inverse exists for " ++ toString ((3:ℤ).fmod 7) ++
            " mod " ++ toString (7:ℤ) ++ ".")))) :=
  ⟨by decide, by decide, by decide, C2_modular_inverse_correct 3 7 (by decide)⟩

/-- C3: `divide(a, b)` fails with the `ValueError` "Cannot divide by zero." exactly
when `b = 0` and otherwise returns `a / b`; `modulo(a, b)` fails with "Cannot modulo
by zero." exactly when `b = 0`, and otherwise returns the flooring remainder, whose
sign follows the divisor; `modulo(7, 3) = 1`. -/
theorem C3_divide_modulo_guards (a b : ℚ) (ia ib : ℤ) :
    (McpTools.divide a b = .error (.valueError "Cannot divide by zero.") ↔ b = 0) ∧
    (b ≠ 0 → McpTools.divide a b = .ok (a / b)) ∧
    (McpTools.modulo ia ib = .error (.valueError "Cannot modulo by zero.") ↔ ib = 0) ∧
    (ib ≠ 0 → McpTools.modulo ia ib = .ok (ia.fmod ib)) ∧
    (0 < ib → 0 ≤ ia.fmod ib ∧ ia.fmod ib < ib) ∧
    (ib < 0 → ib < ia.fmod ib ∧ ia.fmod ib ≤ 0) ∧
    McpTools.modulo 7 3 = .ok 1 := by
  refine ⟨?_, ?_, ?_, ?_, ?_, ?_, by decide⟩
  · unfold McpTools.divide
    by_cases hb : b = 0
    · simp [hb]
    · simp [hb]
  · intro hb
    unfold McpTools.divide
    rw [if_neg hb]
  · unfold McpTools.modulo
    by_cases hb : ib = 0
    · simp [hb]
    · simp [hb]
  · intro hb
    unfold McpTools.modulo
    rw [if_neg hb]
  · intro hb
    exact ⟨Int.fmod_nonneg' ia hb, Int.fmod_lt_of_pos ia hb⟩
  · intro hb
    exact int_fmod_neg_bounds ia hb

/-- C3 witness: the theorem applied at `divide(1, 2)`, `modulo(7, 3)` and (for the
negative-divisor sign clause) `modulo(7, -3)`, with each hypothesis discharged. -/
theorem C3_witness :
    ((2:ℚ) ≠ 0 ∧ McpTools.divide 1 2 = .ok (1 / 2)) ∧
    ((3:ℤ) ≠ 0 ∧ McpTools.modulo 7 3 = .ok ((7:ℤ).fmod 3)) ∧
    ((0:ℤ) < 3 ∧ 0 ≤ (7:ℤ).fmod 3 ∧ (7:ℤ).fmod 3 < 3) ∧
    ((-3:ℤ) < 0 ∧ (-3:ℤ) < (7:ℤ).fmod (-3) ∧ (7:ℤ).fmod (-3) ≤ 0) ∧
    McpTools.modulo 7 3 = .ok 1 := by
  have h1 := C3_divide_modulo_guards 1 2 7 3
  have h2 := C3_divide_modulo_guards 1 2 7 (-3)
  exact ⟨⟨by norm_num, h1.2.1 (by norm_num)⟩,
    ⟨by decide, h1.2.2.2.1 (by decide)⟩,
    ⟨by decide, h1.2.2.2.2.1 (by decide)⟩,
    ⟨by decide, h2.2.2.2.2.2.1 (by decide)⟩,
    h1.2.2.2.2.2.2⟩

/-- C9 counterexample: the claim says the NotFound branch is reachable only for
moduli `m ≥ 1`, but `modular_inverse(1, -2)` reaches it with modulus `-2 < 1`:
the reduction gives `1 % -2 = -1` and the scan range `range(1, -2)` is empty. -/
theorem C9_counterexample :
    (-2:ℤ) < 1 ∧
    McpTools.modular_inverse 1 (-2) =
      .error (.valueError "No modular inverse exists for -1 mod -2.") :=
  ⟨by decide, by decide⟩

/-- C9 (amended): `modular_inverse(a, 0)` fails with the unguarded zero-division
error rather than the NotFound `ValueError`; the NotFound branch is reachable for
every nonzero modulus (e.g. at `a = 0`); and for `m = 1` the scan range is empty so
the call always fails even though `gcd(a mod 1, 1) = 1`. -/
theorem C9_zero_and_unit_modulus (a m : ℤ) (hm : m ≠ 0) :
    McpTools.modular_inverse a 0 = .error .zeroDivisionError ∧
    (∃ msg, McpTools.modular_inverse 0 m = .error (.valueError msg)) ∧
    McpTools.modular_inverse a 1 =
      .error (.valueError "No modular inverse exists for 0 mod 1.") ∧
    Int.gcd (a.fmod 1) 1 = 1 := by
  refine ⟨rfl, ?_, ?_, ?_⟩
  · refine ⟨"No modular inverse exists for " ++ toString (0:ℤ) ++ " mod " ++
      toString m ++ ".", ?_⟩
    unfold McpTools.modular_inverse
    rw [if_neg hm]
    have hz : Int.fmod 0 m = 0 := Int.zero_fmod m
    simp only [hz]
    rw [inverseLoop_none_of_no_hit (fun y => by rw [Int.zero_mul, Int.zero_fmod]; omega)]
  · unfold McpTools.modular_inverse
    rw [if_neg (by omega : (1:ℤ) ≠ 0)]
    simp only [Int.fmod_one]
    rfl
  · simp [Int.fmod_one, Int.gcd]

/-- C9 witness: the amended theorem applied at `a = 5, m = -3`. -/
theorem C9_witness :
    ((-3:ℤ) ≠ 0) ∧
    (McpTools.modular_inverse 5 0 = .error .zeroDivisionError ∧
      (∃ msg, McpTools.modular_inverse 0 (-3) = .error (.valueError msg)) ∧
      McpTools.modular_inverse 5 1 =
        .error (.valueError "No modular inverse exists for 0 mod 1.") ∧
      Int.gcd ((5:ℤ).fmod 1) 1 = 1) :=
  ⟨by decide, C9_zero_and_unit_modulus 5 (-3) (by decide)⟩

/-! ### src/runtime/agent_runtime.py — the core Agent Runtime

Freshly generated UUIDs and wall-clock timestamps are passed in as parameters;
Python dict keys that a code path does not set are modelled as `none`. Single-char
`str.split(sep)[0]` and `str.replace(old, new)` are modelled character-wise. -/

/-- Embeds Python `s.split('-')[0]` for the one-char separator: the text of `s`
before the first occurrence of `sep` (all of `s` when `sep` does not occur). -/
def textBeforeFirst (sep : Char) (s : String) : String :=
  String.mk (s.toList.takeWhile (fun c => c ≠ sep))

/-- Embeds Python `s.replace(c, d)` for one-char arguments: every occurrence of `c`
in `s` is replaced by `d`. -/
def replaceChar (c d : Char) (s : String) : String :=
  String.mk (s.toList.map (fun ch => if ch = c then d else ch))

/-- Embeds `function_name.split('-')[0].replace('_', '-')` from
`AgentRuntime.process_query` (agent_runtime.py line 446). -/
def agentIdOfFunctionName (function_name : String) : String :=
  replaceChar '_' '-' (textBeforeFirst '-' function_name)

/-- Embeds the trace entry `f"Called {agent_id} with query: {query}"`. -/
def traceEntry (agent_id query : String) : String :=
  s!"Called {agent_id} with query: {query}"

/-- Follows the spec's words for C4 — "taking the text before the first underscore":
the comparison definition for the refinement check, not code of the repository. -/
def specAgentIdPrefix (function_name : String) : String :=
  textBeforeFirst '_' function_name

/-- Embeds the loop over `result.function_calls` that fills `agents_used` and
`execution_trace` (agent_runtime.py lines 443-449). -/
def recordFunctionCalls (query : String) (function_calls : List String) :
    List String × List String :=
  function_calls.foldl
    (fun acc fn =>
      let agent_id := agentIdOfFunctionName fn
      (acc.1 ++ [agent_id], acc.2 ++ [traceEntry agent_id query]))
    ([], [])

/-- One turn entry of the in-memory `self.conversations[conversation_id]` list. -/
structure Turn where
  role : String
  content : String
  timestamp : String
  agents_used : Option (List String) := none
  execution_trace : Option (List String) := none
  deriving DecidableEq, Repr

/-- The in-memory `self.conversations` dict: conversation id to ordered turn list. -/
abbrev Conversations := List (String × List Turn)

/-- Dict lookup with `[]` default, as `process_query` reads a conversation. -/
def lookupConversation : Conversations → String → List Turn
  | [], _ => []
  | p :: rest, cid => if p.1 = cid then p.2 else lookupConversation rest cid

/-- Embeds `if conversation_id not in self.conversations: ... = []` followed by
`self.conversations[conversation_id].append(entry)`. -/
def appendTurn : Conversations → String → Turn → Conversations
  | [], cid, t => [(cid, [t])]
  | p :: rest, cid, t =>
      if p.1 = cid then (p.1, p.2 ++ [t]) :: rest
      else p :: appendTurn rest cid t

/-- The completion result shape `process_query` consumes: extracted response text
plus the names of the function calls the model performed. -/
structure Completion where
  content : String
  function_calls : List String
  deriving DecidableEq, Repr

/-- The Message-shaped result of `process_query`; fields the Python error path does
not set are `none` there. -/
structure ResponseMessage where
  senderId : String
  recipientId : String
  content : String
  execution_trace : Option (List String)
  agents_used : Option (List String)
  error : Option String
  deriving DecidableEq, Repr

namespace AgentRuntime

/-- Embeds `AgentRuntime.process_query` (agent_runtime.py lines 344-493): appends the
user turn, then on a successful chat completion records agents_used / execution_trace
and appends the assistant turn; on a raised exception returns the error message and
leaves the conversation as it stands after the user turn. The chat-completion call
is the `completion` parameter (`Except` models the `try`/`except`). -/
def process_query (convs : Conversations) (conversation_id query timestamp : String)
    (completion : Except String Completion) (verbose : Bool) :
    ResponseMessage × Conversations :=
  let convs1 := appendTurn convs conversation_id
    { role := "user", content := query, timestamp := timestamp }
  match completion with
  | .ok result =>
      let recorded := recordFunctionCalls query result.function_calls
      ({ senderId := "runtime", recipientId := "user", content := result.content,
         execution_trace := some (if verbose then recorded.2 else []),
         agents_used := some recorded.1, error := none },
       appendTurn convs1 conversation_id
         { role := "assistant", content := result.content, timestamp := timestamp,
           agents_used := some recorded.1,
           execution_trace := some (if verbose then recorded.2 else []) })
  | .error e =>
      ({ senderId := "runtime", recipientId := "user",
         content := "Error processing query: " ++ e,
         execution_trace := none, agents_used := none, error := some e },
       convs1)

end AgentRuntime

/-- Appending a turn to a conversation extends exactly that conversation's history
by exactly that one entry. -/
theorem lookup_appendTurn (convs : Conversations) (cid : String) (t : Turn) :
    lookupConversation (appendTurn convs cid t) cid =
      lookupConversation convs cid ++ [t] := by
  induction convs with
  | nil => simp [appendTurn, lookupConversation]
  | cons p rest ih =>
    by_cases h : p.1 = cid
    · simp [appendTurn, lookupConversation, h]
    · simp [appendTurn, lookupConversation, h, ih]

/-- The fold over the function calls produces the two per-call lists in order. -/
theorem recordFunctionCalls_eq_map (query : String) (fns : List String) :
    recordFunctionCalls query fns =
      (fns.map agentIdOfFunctionName,
       fns.map (fun fn => traceEntry (agentIdOfFunctionName fn) query)) := by
  have go : ∀ (rest : List String) (acc : List String × List String),
      rest.foldl
        (fun acc fn =>
          let agent_id := agentIdOfFunctionName fn
          (acc.1 ++ [agent_id], acc.2 ++ [traceEntry agent_id query]))
        acc =
      (acc.1 ++ rest.map agentIdOfFunctionName,
       acc.2 ++ rest.map (fun fn => traceEntry (agentIdOfFunctionName fn) query)) := by
    intro rest
    induction rest with
    | nil => intro acc; simp
    | cons f tail ih => intro acc; simp [ih]
  simpa [recordFunctionCalls] using go fns ([], [])

/-- C4 counterexample: the claim derives `agent_id` from "the text before the first
underscore", but the two function names `hello_agent-call_agent` and
`hello_world-call_agent` share that text (`hello`) while the code derives the
distinct ids `hello-agent` and `hello-world` — the code in fact takes the text
before the first hyphen and then replaces underscores by hyphens. -/
theorem C4_counterexample :
    specAgentIdPrefix "hello_agent-call_agent" =
      specAgentIdPrefix "hello_world-call_agent" ∧
    agentIdOfFunctionName "hello_agent-call_agent" ≠
      agentIdOfFunctionName "hello_world-call_agent" ∧
    specAgentIdPrefix "hello_agent-call_agent" = "hello" ∧
    agentIdOfFunctionName "hello_agent-call_agent" = "hello-agent" :=
  ⟨by decide, by decide, by decide, by decide⟩

/-- C4 (amended): for every function call reported by the completion result, the
recorded `agent_id` is the text of the function name before the first hyphen with
every underscore replaced by a hyphen, `agents_used` lists these ids in call order,
and `execution_trace` gains "Called <agent_id> with query: <query>" per call
(surfaced in the returned message only when verbose). -/
theorem C4_agents_used_and_trace (convs : Conversations) (cid query ts : String)
    (result : Completion) (verbose : Bool) :
    ((AgentRuntime.process_query convs cid query ts (.ok result) verbose).1).agents_used =
      some (result.function_calls.map agentIdOfFunctionName) ∧
    ((AgentRuntime.process_query convs cid query ts (.ok result) verbose).1).execution_trace =
      some (if verbose then
          result.function_calls.map (fun fn => traceEntry (agentIdOfFunctionName fn) query)
        else []) ∧
    agentIdOfFunctionName "hello_agent-call_agent" = "hello-agent" ∧
    traceEntry "hello-agent" "hi" = "Called hello-agent with query: hi" := by
  refine ⟨?_, ?_, by decide, by decide⟩
  · simp [AgentRuntime.process_query, recordFunctionCalls_eq_map]
  · simp [AgentRuntime.process_query, recordFunctionCalls_eq_map]

/-- C10: when the chat-completion call fails, `process_query` returns a message whose
content is the failure text prefixed by "Error processing query: ", carrying the
error field, while the in-memory conversation keeps the already-appended user turn
and gains no assistant turn: the history is exactly one user entry longer. -/
theorem C10_error_path_keeps_user_turn (convs : Conversations)
    (cid query ts e : String) (verbose : Bool) :
    ((AgentRuntime.process_query convs cid query ts (.error e) verbose).1).content =
      "Error processing query: " ++ e ∧
    ((AgentRuntime.process_query convs cid query ts (.error e) verbose).1).error =
      some e ∧
    ((AgentRuntime.process_query convs cid query ts (.error e) verbose).1).agents_used =
      none ∧
    lookupConversation
        ((AgentRuntime.process_query convs cid query ts (.error e) verbose).2) cid =
      lookupConversation convs cid ++
        [{ role := "user", content := query, timestamp := ts }] := by
  refine ⟨rfl, rfl, rfl, ?_⟩
  exact lookup_appendTurn convs cid _

/-! ### agent_runtime.py — AgentPlugin.generate_request and AgentGroupChat -/

/-- The wire value of the envelope's `type` field: the numeric literal `0` for the
goodbye peer, the JSON string "Text" otherwise. -/
inductive MsgType where
  | num (n : ℤ)
  | text (s : String)
  deriving DecidableEq, Repr

/-- The request envelope built by `AgentPlugin.generate_request`. -/
structure WireMessage where
  messageId : String
  conversationId : String
  senderId : String
  recipientId : String
  content : String
  timestamp : String
  type : MsgType
  deriving DecidableEq, Repr

/-- Embeds `AgentPlugin.generate_request` (agent_runtime.py lines 55-72): generates a
conversation id when absent, picks `type = 0` for the agent id "goodbye-agent" and
`"Text"` otherwise, and fills the envelope. The fresh UUIDs and the UTC timestamp
are parameters. -/
def generate_request (agent_id content sender_id : String)
    (conversation_id : Option String)
    (freshMessageId freshConversationId timestamp : String) : WireMessage :=
  let conversation_id :=
    match conversation_id with
    | none => freshConversationId
    | some cid => cid
  let msg_type : MsgType := if agent_id = "goodbye-agent" then .num 0 else .text "Text"
  { messageId := freshMessageId, conversationId := conversation_id,
    senderId := sender_id, recipientId := agent_id, content := content,
    timestamp := timestamp, type := msg_type }

/-- C8: the envelope's `type` is the numeric literal `0` exactly when the target
agent id is the goodbye peer and the string "Text" for every other agent id, while
all other fields (fresh messageId, conversationId generated when absent, senderId,
recipientId = agent id, content, timestamp) are populated identically in both
cases, by the same branch-independent expressions. -/
theorem C8_goodbye_wire_quirk (agent_id content sender_id : String)
    (conversation_id : Option String) (mid fcid ts : String) :
    ((generate_request agent_id content sender_id conversation_id mid fcid ts).type =
        .num 0 ↔ agent_id = "goodbye-agent") ∧
    ((generate_request agent_id content sender_id conversation_id mid fcid ts).type =
        .text "Text" ↔ agent_id ≠ "goodbye-agent") ∧
    (generate_request agent_id content sender_id conversation_id mid fcid ts).messageId =
      mid ∧
    (generate_request agent_id content sender_id conversation_id mid fcid ts).conversationId =
      conversation_id.getD fcid ∧
    (generate_request agent_id content sender_id conversation_id mid fcid ts).senderId =
      sender_id ∧
    (generate_request agent_id content sender_id conversation_id mid fcid ts).recipientId =
      agent_id ∧
    (generate_request agent_id content sender_id conversation_id mid fcid ts).content =
      content ∧
    (generate_request agent_id content sender_id conversation_id mid fcid ts).timestamp =
      ts := by
  cases conversation_id <;> by_cases h : agent_id = "goodbye-agent" <;>
    simp [generate_request, h, Option.getD]

/-- An agent handle as the group chat uses it: identity plus the observable
query-to-response behaviour of its `call_agent` HTTP round trip. -/
structure AgentHandle where
  id : String
  name : String
  respond : String → String

/-- Embeds `AgentTerminationStrategy` (agent_runtime.py lines 132-141). -/
structure AgentTerminationStrategy where
  max_iterations : Nat

/-- Embeds `AgentTerminationStrategy.should_terminate`. -/
def AgentTerminationStrategy.should_terminate (s : AgentTerminationStrategy)
    (iteration : Nat) (messages : List (String × String)) : Bool :=
  decide (iteration ≥ s.max_iterations)

/-- Embeds the `AgentGroupChat` aggregate: configured agents, termination policy,
accumulating message log of (role, content) pairs. -/
structure AgentGroupChat where
  agents : List AgentHandle
  termination_strategy : AgentTerminationStrategy
  messages : List (String × String)

/-- One entry of the `agent_responses` list built by `AgentGroupChat.process_query`
(`agent_id`, `agent_name`, response `content`). -/
structure AgentResponseRecord where
  agent_id : String
  agent_name : String
  content : String
  deriving DecidableEq, Repr

/-- Embeds the `for agent in self.agents:` loop of `AgentGroupChat.process_query`:
each configured agent is called once, sequentially, in list order. -/
def callAgentsInOrder (query user_id : String) :
    List AgentHandle → List AgentResponseRecord
  | [] => []
  | agent :: rest =>
      { agent_id := agent.id, agent_name := agent.name,
        content := agent.respond query } :: callAgentsInOrder query user_id rest

/-- The aggregate result of `AgentGroupChat.process_query`. -/
structure GroupChatResult where
  senderId : String
  recipientId : String
  content : String
  agent_responses : List AgentResponseRecord
  deriving DecidableEq, Repr

/-- Embeds `AgentGroupChat.process_query` (agent_runtime.py lines 152-223): appends
the user turn, calls every configured agent once in order (the termination strategy
is never consulted), joins the response contents with single spaces, and appends
the assistant turn. -/
def AgentGroupChat.process_query (chat : AgentGroupChat) (query user_id : String) :
    GroupChatResult × AgentGroupChat :=
  let responses := callAgentsInOrder query user_id chat.agents
  let combined_content := " ".intercalate (responses.map (·.content))
  ({ senderId := "agent-runtime", recipientId := user_id,
     content := combined_content, agent_responses := responses },
   { chat with messages := chat.messages ++
       [("user", query), ("assistant", combined_content)] })

/-- The sequential call loop visits exactly the configured agents, in order. -/
theorem callAgentsInOrder_eq_map (query user_id : String) (agents : List AgentHandle) :
    callAgentsInOrder query user_id agents =
      agents.map (fun agent =>
        { agent_id := agent.id, agent_name := agent.name,
          content := agent.respond query }) := by
  induction agents with
  | nil => rfl
  | cons a rest ih => simp [callAgentsInOrder, ih]

/-- C5: `AgentGroupChat.process_query` calls every configured agent exactly once,
sequentially, in configured order, and its result is independent of the configured
termination policy; three agents answering "A", "B", "C" produce combined content
"A B C" and an `agent_responses` list of length 3 in the same order. -/
theorem C5_group_chat_single_pass (agents : List AgentHandle)
    (t1 t2 : AgentTerminationStrategy) (log : List (String × String))
    (query user_id : String) :
    (AgentGroupChat.process_query ⟨agents, t1, log⟩ query user_id).1 =
      (AgentGroupChat.process_query ⟨agents, t2, log⟩ query user_id).1 ∧
    ((AgentGroupChat.process_query ⟨agents, t1, log⟩ query user_id).1).agent_responses =
      agents.map (fun agent =>
        { agent_id := agent.id, agent_name := agent.name,
          content := agent.respond query }) ∧
    ((AgentGroupChat.process_query ⟨agents, t1, log⟩ query user_id).1).content =
      " ".intercalate (agents.map (fun agent => agent.respond query)) ∧
    (let three : List AgentHandle :=
      [⟨"a1", "Agent1", fun _ => "A"⟩, ⟨"a2", "Agent2", fun _ => "B"⟩,
       ⟨"a3", "Agent3", fun _ => "C"⟩]
     let result := (AgentGroupChat.process_query ⟨three, t1, []⟩ query user_id).1
     result.content = "A B C" ∧ result.agent_responses.length = 3 ∧
       result.agent_responses.map (fun r => r.agent_id) = ["a1", "a2", "a3"]) := by
  refine ⟨rfl, ?_, ?_, ?_, ?_, ?_⟩
  · simp [AgentGroupChat.process_query, callAgentsInOrder_eq_map]
  · simp [AgentGroupChat.process_query, callAgentsInOrder_eq_map, List.map_map]
    rfl
  · rfl
  · rfl
  · rfl

/-! ### src/database/session.py — session lookup and expiry

The session table is modelled as a list of rows; `scalar_one_or_none` on the
token-filtered select is first-match lookup, meaningful under the schema's token
uniqueness, which the theorems assume as `Nodup` of the token column. Expiry
instants and the clock are modelled as naturals. -/

/-- One row of the sessions table (the columns the lookup logic reads). -/
structure SessionRow where
  id : String
  session_token : String
  expires_at : Option Nat
  deriving DecidableEq, Repr

/-- Embeds the token-filtered select plus `scalar_one_or_none`. -/
def findByToken : List SessionRow → String → Option SessionRow
  | [], _ => none
  | s :: rest, tok => if s.session_token = tok then some s else findByToken rest tok

/-- Removes the row `db.delete(session)` deletes: the row found by token. -/
def eraseByToken : List SessionRow → String → List SessionRow
  | [], _ => []
  | s :: rest, tok => if s.session_token = tok then rest else s :: eraseByToken rest tok

/-- Embeds `delete_session` (session.py lines 52-63): looks up by token; when found,
deletes the row and reports `True`, else leaves the table and reports `False`. -/
def delete_session (db : List SessionRow) (session_token : String) :
    List SessionRow × Bool :=
  match findByToken db session_token with
  | some _ => (eraseByToken db session_token, true)
  | none => (db, false)

/-- Embeds `get_session` (session.py lines 38-49): looks up by token; when the row
exists and its `expires_at` is set and lies strictly before the current instant, it
deletes the row via `delete_session` and returns `None`; otherwise it returns the
row (rows with no `expires_at` are never expired). Returns the result together
with the table as the call leaves it. -/
def get_session (db : List SessionRow) (session_token : String) (now : Nat) :
    Option SessionRow × List SessionRow :=
  match findByToken db session_token with
  | none => (none, db)
  | some s =>
      match s.expires_at with
      | some t =>
          if t < now then (none, (delete_session db session_token).1)
          else (some s, db)
      | none => (some s, db)

/-- A token that no row carries is not found. -/
theorem findByToken_eq_none_of_not_mem (db : List SessionRow) (tok : String)
    (h : tok ∉ db.map (fun s => s.session_token)) : findByToken db tok = none := by
  induction db with
  | nil => rfl
  | cons s rest ih =>
    simp only [List.map_cons, List.mem_cons] at h
    push_neg at h
    simp only [findByToken, if_neg (fun he : s.session_token = tok => h.1 he.symm)]
    exact ih h.2

/-- Under token uniqueness, deleting the row found by a token removes every row
with that token. -/
theorem findByToken_erase_self (db : List SessionRow) (tok : String)
    (h : (db.map (fun s => s.session_token)).Nodup) :
    findByToken (eraseByToken db tok) tok = none := by
  induction db with
  | nil => rfl
  | cons s rest ih =>
    simp only [List.map_cons, List.nodup_cons] at h
    by_cases hs : s.session_token = tok
    · simp only [eraseByToken, if_pos hs]
      exact findByToken_eq_none_of_not_mem rest tok (hs ▸ h.1)
    · have e1 : eraseByToken (s :: rest) tok = s :: eraseByToken rest tok := by
        simp [eraseByToken, hs]
      have e2 : findByToken (s :: eraseByToken rest tok) tok =
          findByToken (eraseByToken rest tok) tok := by
        simp [findByToken, hs]
      rw [e1, e2]
      exact ih h.2

/-- C6: `get_session(token)` returns the stored session exactly when a session with
that token exists and its expiry has not passed; when the session exists but its
`expires_at` has passed, it returns absent and deletes the row, so a subsequent
lookup by the same token finds nothing. -/
theorem C6_get_session_expiry (db : List SessionRow) (tok : String) (now : Nat)
    (hN : (db.map (fun s => s.session_token)).Nodup) :
    (∀ s, findByToken db tok = some s →
      (∀ t, s.expires_at = some t → ¬ t < now) →
      get_session db tok now = (some s, db)) ∧
    (∀ s t, findByToken db tok = some s → s.expires_at = some t → t < now →
      get_session db tok now = (none, eraseByToken db tok) ∧
      findByToken (eraseByToken db tok) tok = none) ∧
    (findByToken db tok = none → get_session db tok now = (none, db)) := by
  refine ⟨?_, ?_, ?_⟩
  · intro s hs hne
    unfold get_session
    simp only [hs]
    cases he : s.expires_at with
    | none => simp only [he]
    | some t => simp only [he, if_neg (hne t he)]
  · intro s t hs ht hlt
    refine ⟨?_, findByToken_erase_self db tok hN⟩
    unfold get_session delete_session
    simp only [hs, ht, if_pos hlt]
  · intro h
    unfold get_session
    simp only [h]

/-- C6 witness: a one-row table with token "tkn" expiring at instant 3; looked up at
instant 5 the session is treated as absent and the row is deleted, at instant 2 it
is returned unchanged. -/
theorem C6_witness :
    (([⟨"s1", "tkn", some 3⟩] : List SessionRow).map
        (fun s => s.session_token)).Nodup ∧
    (get_session [⟨"s1", "tkn", some 3⟩] "tkn" 5 =
        (none, eraseByToken [⟨"s1", "tkn", some 3⟩] "tkn") ∧
      findByToken (eraseByToken [⟨"s1", "tkn", some 3⟩] "tkn") "tkn" = none) ∧
    get_session [⟨"s1", "tkn", some 3⟩] "tkn" 2 =
      (some ⟨"s1", "tkn", some 3⟩, [⟨"s1", "tkn", some 3⟩]) := by
  have h5 := C6_get_session_expiry [⟨"s1", "tkn", some 3⟩] "tkn" 5 (by decide)
  have h2 := C6_get_session_expiry [⟨"s1", "tkn", some 3⟩] "tkn" 2 (by decide)
  refine ⟨by decide, h5.2.1 ⟨"s1", "tkn", some 3⟩ 3 (by decide) rfl (by decide), ?_⟩
  exact h2.1 ⟨"s1", "tkn", some 3⟩ (by decide) (fun t ht => by cases ht; decide)

/-! ### src/runtime/enhanced_agent_runtime.py — streaming persistence wrapper

A chunk dict is modelled with one optional field per key the wrapper reads; the
base stream is the list of chunks it yields, in order, and the wrapper's output is
the list of chunks the caller receives, in yield order (values are snapshots at
yield time). The ids of the persisted user and assistant Message rows are
parameters. -/

/-- A streamed chunk with the keys `stream_process_query_with_persistence` reads
(`content`, `agents_used`, `complete`) or writes (the two message ids); `none`
models an absent key. -/
structure StreamChunk where
  content : Option String := none
  agents_used : Option (List String) := none
  complete : Bool := false
  user_message_id : Option String := none
  assistant_message_id : Option String := none
  deriving DecidableEq, Repr

/-- The annotation written into the terminal chunk after the assistant row is
persisted: `chunk["user_message_id"] = ...; chunk["assistant_message_id"] = ...`. -/
def annotateChunk (user_message_id assistant_message_id : String)
    (c : StreamChunk) : StreamChunk :=
  { c with user_message_id := some user_message_id,
           assistant_message_id := some assistant_message_id }

/-- Embeds the `async for chunk in super().stream_process_query(...)` loop
(enhanced_agent_runtime.py lines 159-194): each chunk is yielded to the caller,
then inspected to extend the accumulated response text and to latch the latest
`agents_used`; a chunk with `complete=true` additionally persists an assistant row
(returned here as the accumulated `(content, agents_used)` pair) and is yielded a
second time, annotated with the two message ids. -/
def persistLoop (user_message_id assistant_message_id : String)
    (full_response_content : String) (agents_used : List String) :
    List StreamChunk → List StreamChunk × List (String × List String)
  | [] => ([], [])
  | c :: rest =>
      let full1 :=
        match c.content with
        | some s => full_response_content ++ s
        | none => full_response_content
      let ag1 :=
        match c.agents_used with
        | some l => l
        | none => agents_used
      let tail := persistLoop user_message_id assistant_message_id full1 ag1 rest
      if c.complete then
        (c :: annotateChunk user_message_id assistant_message_id c :: tail.1,
         (full1, ag1) :: tail.2)
      else (c :: tail.1, tail.2)

/-- Embeds `stream_process_query_with_persistence` restricted to its chunk-rewriting
behaviour: the caller-visible output sequence produced from the base stream's
chunks, starting from an empty accumulated response. -/
def stream_process_query_with_persistence
    (user_message_id assistant_message_id : String)
    (chunks : List StreamChunk) : List StreamChunk :=
  (persistLoop user_message_id assistant_message_id "" [] chunks).1

/-- The caller-visible sequence repeats every `complete` chunk: once as it arrived
and once annotated; all other chunks appear exactly once, unchanged. -/
theorem persistLoop_output (user_message_id assistant_message_id : String)
    (full : String) (ag : List String) (chunks : List StreamChunk) :
    (persistLoop user_message_id assistant_message_id full ag chunks).1 =
      chunks.flatMap (fun c =>
        if c.complete then
          [c, annotateChunk user_message_id assistant_message_id c]
        else [c]) := by
  induction chunks generalizing full ag with
  | nil => rfl
  | cons c rest ih =>
    by_cases hc : c.complete <;> simp [persistLoop, hc, ih]

/-- C7 counterexample: a base stream consisting of exactly one terminal chunk is
forwarded as two caller-visible chunks — first unchanged, then annotated — so the
terminal chunk does not appear exactly once in the output sequence. -/
theorem C7_counterexample :
    stream_process_query_with_persistence "u1" "a1" [{ complete := true }] =
      [{ complete := true },
       { complete := true, user_message_id := some "u1",
         assistant_message_id := some "a1" }] ∧
    (stream_process_query_with_persistence "u1" "a1" [{ complete := true }]).length ≠
      ([{ complete := true }] : List StreamChunk).length :=
  ⟨by decide, by decide⟩

/-- C7 (amended): every chunk of the wrapped base stream that does not signal
`complete=true` appears exactly once in the caller-visible output, unchanged as it
arrives; a chunk signalling `complete=true` is yielded twice — once unchanged as it
arrives and then once more annotated with the newly persisted `user_message_id` and
`assistant_message_id`. -/
theorem C7_stream_forwarding (user_message_id assistant_message_id : String)
    (chunks : List StreamChunk) :
    stream_process_query_with_persistence user_message_id assistant_message_id
        chunks =
      chunks.flatMap (fun c =>
        if c.complete then
          [c, annotateChunk user_message_id assistant_message_id c]
        else [c]) :=
  persistLoop_output user_message_id assistant_message_id "" [] chunks
